import Mathlib

/-!
Verification of the worker-DOM mutation-synchronization engine: a shallow
embedding of the renderer module (event proxy, identity map, node
materializer, mutation queue/scheduler) and of the `amp-script` admission
controller (`mutationPump_`) and `SanitizerImpl`, with theorems checking the
specification's claims against the embedded code.
-/

namespace Renderer

/-- Sanitization policy: models the DOMPurify configuration (an external
dependency of the renderer).  `allowedTag` is the tag allow-list,
`allowedAttr` the attribute allow-list. -/
structure Policy where
  allowedTag : String → Bool
  allowedAttr : String → Bool

/-- One live DOM node's data: node type (1 = element, 3 = text), node name,
class, attribute list, property map, text data (`nodeValue`), child
references, parent reference, and the `__id` tag written by
`bindNodeToSkeletonId`. -/
structure NodeData where
  nodeType : Nat
  nodeName : String
  className : String
  attrs : List (String × String)
  props : List (String × String)
  nodeValue : String
  children : List Nat
  parent : Option Nat
  idTag : Option String
deriving Repr, DecidableEq

/-- A fresh element node. -/
def elemData (nodeName : String) : NodeData :=
  ⟨1, nodeName, "", [], [], "", [], none, none⟩

/-- A fresh text node holding `data`. -/
def textData (data : String) : NodeData :=
  ⟨3, "#text", "", [], [], data, [], none, none⟩

/-- The coordinator's document state: a node store keyed by reference,
an allocation counter, the `NODES` identity map (worker id → node
reference), the root container reference, and a count of DOMPurify
sanitizer invocations (instrumentation of `DOMPurify.sanitize` calls). -/
structure Doc where
  store : List (Nat × NodeData)
  nextRef : Nat
  nodes : List (String × Nat)
  root : Nat
  sanCount : Nat
deriving Repr, DecidableEq

/-- Association-list lookup (models `Map.get`). -/
def lookupA {α β : Type} [DecidableEq α] : List (α × β) → α → Option β
  | [], _ => none
  | (k, v) :: t, a => if k = a then some v else lookupA t a

/-- Association-list set: replace the binding if the key is present,
otherwise append (models `Map.set` and `setAttribute`). -/
def mapSet {α β : Type} [DecidableEq α] : List (α × β) → α → β → List (α × β)
  | [], a, b => [(a, b)]
  | (k, v) :: t, a, b => if k = a then (a, b) :: t else (k, v) :: mapSet t a b

/-- Update the value bound to a key in place, leaving other entries as they
are. -/
def updA {α β : Type} [DecidableEq α] : List (α × β) → α → (β → β) →
    List (α × β)
  | [], _, _ => []
  | (k, v) :: t, a, f =>
    if k = a then (k, f v) :: updA t a f else (k, v) :: updA t a f

def getData (d : Doc) (r : Nat) : Option NodeData :=
  lookupA d.store r

def updData (d : Doc) (r : Nat) (f : NodeData → NodeData) : Doc :=
  { d with store := updA d.store r f }

/-- Allocate a fresh node in the store. -/
def alloc (d : Doc) (nd : NodeData) : Nat × Doc :=
  (d.nextRef,
    { d with
        store := d.store ++ [(d.nextRef, nd)]
        nextRef := d.nextRef + 1 })

/-- A serialized reference to a node as it appears in mutation-record
fields: absent (`null`/`undefined`), a bare id string, or a serialized node
object carrying `nodeName` and `__id`. -/
inductive NodeRefSpec where
  | null
  | idStr (s : String)
  | obj (nodeName : String) (id : String)
deriving Repr, DecidableEq

/-- `getNode`: resolves a serialized element reference to a live node.
Falsy input resolves to nothing; a string is looked up in `NODES`; an
object whose `nodeName` is `BODY` resolves to the root container;
any other object is looked up by its `__id`. -/
def getNode (d : Doc) : NodeRefSpec → Option Nat
  | .null => none
  | .idStr s => lookupA d.nodes s
  | .obj nodeName id => if nodeName = "BODY" then some d.root else lookupA d.nodes id

/-- `bindNodeToSkeletonId`: establishes the link between a live node and a
worker-generated identifier (`node.__id = id; NODES.set(id, node)`). -/
def bindNodeToSkeletonId (d : Doc) (r : Nat) (id : String) : Doc :=
  let d1 := updData d r (fun x => { x with idTag := some id })
  { d1 with nodes := mapSet d1.nodes id r }

/-- Remove a node from its parent's child list and clear its parent link
(the DOM-side effect shared by `removeChild` and by re-inserting moves). -/
def detach (d : Doc) (r : Nat) : Doc :=
  match getData d r with
  | none => d
  | some nd =>
    match nd.parent with
    | none => d
    | some pr =>
      updData (updData d pr
          (fun x => { x with children := x.children.filter (· ≠ r) }))
        r (fun x => { x with parent := none })

/-- `parent.appendChild(child)`: moves `child` to the end of `parent`'s
child list. -/
def appendChild (d : Doc) (p c : Nat) : Doc :=
  let d1 := detach d c
  updData (updData d1 p (fun x => { x with children := x.children ++ [c] }))
    c (fun x => { x with parent := some p })

/-- Insert `c` immediately before the first occurrence of `a`. -/
def insertBeforeList (l : List Nat) (a c : Nat) : List Nat :=
  match l with
  | [] => [c]
  | x :: t => if x = a then c :: x :: t else x :: insertBeforeList t a c

/-- `parent.insertBefore(child, anchor)`: with no anchor this appends;
with an anchor that is not a child of `parent` the DOM throws
`NotFoundError`; otherwise `child` is moved before the anchor. -/
def insertBefore (d : Doc) (p c : Nat) (anchor : Option Nat) :
    Except String Doc :=
  match anchor with
  | none => .ok (appendChild d p c)
  | some a =>
    match getData d p with
    | none => .error "TypeError"
    | some pd =>
      if a ∈ pd.children then
        let d1 := detach d c
        .ok (updData (updData d1 p
            (fun x => { x with children := insertBeforeList x.children a c }))
          c (fun x => { x with parent := some p }))
      else .error "NotFoundError"

/-- `parent.removeChild(child)`: throws `NotFoundError` when `child` is not
a child of `parent`. -/
def removeChild (d : Doc) (p c : Nat) : Except String Doc :=
  match getData d p with
  | none => .error "TypeError"
  | some pd =>
    if c ∈ pd.children then
      .ok (updData (updData d p
          (fun x => { x with children := x.children.filter (· ≠ c) }))
        c (fun x => { x with parent := none }))
    else .error "NotFoundError"

/-- Whether DOMPurify keeps a node: text nodes always survive, element
nodes survive iff their tag is on the allow-list. -/
def isAllowedNode (p : Policy) (d : Doc) (c : Nat) : Bool :=
  match getData d c with
  | none => false
  | some cd => cd.nodeType != 1 || p.allowedTag cd.nodeName

/-- Modelled from the spec: DOMPurify's `IN_PLACE` structural sanitization
pass (an external library).  Walking the subtree of `r`, it strips
attributes that are not on the attribute allow-list and detaches element
descendants whose tag is not on the tag allow-list; the (possibly
parentless) root node itself stays referenced.  `fuel` bounds the walk. -/
def purifyRef (p : Policy) : Nat → Nat → Doc → Doc
  | 0, _, d => d
  | fuel + 1, r, d =>
    match getData d r with
    | none => d
    | some nd =>
      if nd.nodeType = 1 then
        let keep := nd.children.filter (fun c => isAllowedNode p d c)
        let removed := nd.children.filter (fun c => !(isAllowedNode p d c))
        let d1 := removed.foldl
          (fun acc c => updData acc c (fun x => { x with parent := none })) d
        let d2 := updData d1 r (fun x =>
          { x with attrs := x.attrs.filter (fun a => p.allowedAttr a.1)
                   children := keep })
        keep.foldl (fun acc c => purifyRef p fuel c acc) d2
      else d

/-- One `DOMPurify.sanitize(node, {IN_PLACE: true})` call: runs the
in-place pass over `r`'s subtree and counts the invocation. -/
def domPurifyInPlace (p : Policy) (d : Doc) (r : Nat) : Doc :=
  let d1 := purifyRef p (d.store.length + 1) r d
  { d1 with sanCount := d1.sanCount + 1 }

/-- A worker-produced tree skeleton: `{nodeType, nodeName, className,
style, attributes, childNodes, data, __id}`.  A `className` of `""`
models an absent (falsy) class. -/
inductive Skeleton where
  | text (data : String) (id : String)
  | elem (nodeName : String) (className : String)
      (style : List (String × String)) (attributes : List (String × String))
      (childNodes : List Skeleton) (id : String)

/-- The `__id` field of a skeleton. -/
def Skeleton.skelId : Skeleton → String
  | .text _ i => i
  | .elem _ _ _ _ _ i => i

/-- `getNode` applied to a serialized node object (as the elements of
`addedNodes` are): the `BODY` sentinel resolves to the root, anything else
is looked up by `__id`. -/
def getNodeOfSkeleton (d : Doc) : Skeleton → Option Nat
  | .text _ id => lookupA d.nodes id
  | .elem nodeName _ _ _ _ id =>
    if nodeName = "BODY" then some d.root else lookupA d.nodes id

mutual

/-- `createNode(skeleton, sanitize)`: materializes a skeleton depth-first
(with `SANITIZE_IN_PLACE` enabled, as in the source).  For an element it
sets the class when truthy, then runs the inline-style loop — whose body
reads the out-of-scope variable `i` (`node.style[i] = styles[s]`), so any
skeleton with a non-empty style map throws a `ReferenceError` — then sets
the attributes, materializes the children without per-child sanitization,
and, when `sanitize` is set, sanitizes the finished subtree in place.
Finally the node is bound to the skeleton's id, unconditionally. -/
def createNode (p : Policy) (skeleton : Skeleton) (sanitize : Bool)
    (d : Doc) : Except String (Nat × Doc) :=
  match skeleton with
  | .text data id =>
    let (r, d1) := alloc d (textData data)
    let d2 := if sanitize then domPurifyInPlace p d1 r else d1
    .ok (r, bindNodeToSkeletonId d2 r id)
  | .elem nodeName className style attributes childNodes id =>
    let (r, d1) := alloc d (elemData nodeName)
    let d2 := if className ≠ "" then
        updData d1 r (fun x => { x with className := className })
      else d1
    if style ≠ [] then .error "ReferenceError: i is not defined"
    else
      let d3 := attributes.foldl
        (fun acc a => updData acc r
          (fun x => { x with attrs := mapSet x.attrs a.1 a.2 })) d2
      match createChildren p childNodes r d3 with
      | .error e => .error e
      | .ok d4 =>
        let d5 := if sanitize then domPurifyInPlace p d4 r else d4
        .ok (r, bindNodeToSkeletonId d5 r id)

/-- The child-materialization loop of `createNode`: each child is created
with `sanitize = false` (the parent will be sanitized as a whole) and
appended. -/
def createChildren (p : Policy) (childNodes : List Skeleton) (r : Nat)
    (d : Doc) : Except String Doc :=
  match childNodes with
  | [] => .ok d
  | s :: rest =>
    match createNode p s false d with
    | .error e => .error e
    | .ok (c, d1) => createChildren p rest r (appendChild d1 r c)

end

/-- A MutationRecord as received from the worker, after the coordinator
stamped it with a local receive `timestamp`.  The four variants mirror the
keys of the `MUTATIONS` dispatch table (`previousSibling` is carried but,
as in the source, never used). -/
inductive MutRecord where
  | childList (target : NodeRefSpec) (removedNodes : List NodeRefSpec)
      (addedNodes : List Skeleton) (previousSibling nextSibling : NodeRefSpec)
      (timestamp : Int)
  | attributes (target : NodeRefSpec) (attributeName : String) (value : String)
      (timestamp : Int)
  | characterData (target : NodeRefSpec) (value : String) (timestamp : Int)
  | properties (target : NodeRefSpec) (propertyName : String) (value : String)
      (timestamp : Int)

/-- The `target` field of a record. -/
def MutRecord.target : MutRecord → NodeRefSpec
  | .childList t _ _ _ _ _ => t
  | .attributes t _ _ _ => t
  | .characterData t _ _ => t
  | .properties t _ _ _ => t

/-- The coordinator-assigned receive timestamp of a record. -/
def MutRecord.timestamp : MutRecord → Int
  | .childList _ _ _ _ _ ts => ts
  | .attributes _ _ _ ts => ts
  | .characterData _ _ ts => ts
  | .properties _ _ _ ts => ts

/-- Whether the record is of the `characterData` or `attributes` variant
(the two variants subject to the viewport check in `processMutations`). -/
def MutRecord.isCharacterDataOrAttributes : MutRecord → Bool
  | .characterData _ _ _ => true
  | .attributes _ _ _ _ => true
  | _ => false

/-- Whether the record is of the `characterData` variant. -/
def MutRecord.isCharacterData : MutRecord → Bool
  | .characterData _ _ _ => true
  | _ => false

/-- The `removedNodes` loop of `MUTATIONS.childList`, iterating backwards:
`parent.removeChild(getNode(removedNodes[i]))`.  A member access on an
unresolved parent, or `removeChild` of an unresolved node, throws a
`TypeError`. -/
def removeLoop (d : Doc) (parent : Option Nat) :
    List NodeRefSpec → Except String Doc
  | [] => .ok d
  | spec :: rest =>
    match parent with
    | none => .error "TypeError"
    | some pr =>
      match getNode d spec with
      | none => .error "TypeError"
      | some cr =>
        match removeChild d pr cr with
        | .error e => .error e
        | .ok d1 => removeLoop d1 parent rest

/-- The `addedNodes` loop of `MUTATIONS.childList`: each added serialized
node is resolved through the identity map or, when unbound, materialized
by `createNode` with sanitization; it is then inserted before the resolved
`nextSibling` anchor (an unresolved anchor degrades to appending). -/
def addLoop (p : Policy) (d : Doc) (parent : Option Nat)
    (nextSibling : NodeRefSpec) : List Skeleton → Except String Doc
  | [] => .ok d
  | skel :: rest =>
    let resolved : Except String (Nat × Doc) :=
      match getNodeOfSkeleton d skel with
      | some r => .ok (r, d)
      | none => createNode p skel true d
    match resolved with
    | .error e => .error e
    | .ok (newNode, d1) =>
      match parent with
      | none => .error "TypeError"
      | some pr =>
        match insertBefore d1 pr newNode (getNode d1 nextSibling) with
        | .error e => .error e
        | .ok d2 => addLoop p d2 parent nextSibling rest

/-- The `MUTATIONS` dispatch: applies one MutationRecord to the document.
`childList` removes then inserts with sibling anchors; `attributes` sets
the attribute and then sanitizes the target's subtree in place;
`characterData` assigns `nodeValue` directly (the source explicitly skips
sanitization there); `properties` assigns the property and sanitizes in
place.  Resolution failure of the target surfaces as the `TypeError` the
member access on `undefined` would throw. -/
def applyMutation (p : Policy) (d : Doc) : MutRecord → Except String Doc
  | .childList target removedNodes addedNodes _prev nextSibling _ts =>
    let parent := getNode d target
    match removeLoop d parent removedNodes with
    | .error e => .error e
    | .ok d1 => addLoop p d1 parent nextSibling addedNodes
  | .attributes target attributeName value _ts =>
    match getNode d target with
    | none => .error "TypeError"
    | some r =>
      let d1 := updData d r
        (fun x => { x with attrs := mapSet x.attrs attributeName value })
      .ok (domPurifyInPlace p d1 r)
  | .characterData target value _ts =>
    match getNode d target with
    | none => .error "TypeError"
    | some r => .ok (updData d r (fun x => { x with nodeValue := value }))
  | .properties target propertyName value _ts =>
    match getNode d target with
    | none => .error "TypeError"
    | some r =>
      let d1 := updData d r
        (fun x => { x with props := mapSet x.props propertyName value })
      .ok (domPurifyInPlace p d1 r)

/-- Applying a sequence of records in order, stopping at the first
uncaught error, as the `MUTATION_QUEUE` drain does. -/
def applyAll (p : Policy) (q : List MutRecord) (d : Doc) :
    Except String Doc :=
  q.foldl (fun acc m => acc.bind (fun di => applyMutation p di m)) (.ok d)

/-- `isElementInViewport`: a text node is replaced by its parent (a missing
parent makes the bounding-box read throw), then the bounding box is tested
against the window — the geometric outcome is the environment oracle
`vis`. -/
def isElementInViewport (d : Doc) (vis : Nat → Bool) (r : Nat) :
    Except String Bool :=
  match getData d r with
  | none => .error "TypeError"
  | some nd =>
    if nd.nodeType = 3 then
      match nd.parent with
      | none => .error "TypeError"
      | some pr => .ok (vis pr)
    else .ok (vis r)

/-- `GESTURE_TO_MUTATION_THRESHOLD`: 1000ms when a gesture is required to
mutate, otherwise `Infinity` (modelled as `none`). -/
def GESTURE_TO_MUTATION_THRESHOLD (requireGestureToMutate : Bool) :
    Option Int :=
  if requireGestureToMutate then some 1000 else none

/-- `latency > threshold` with `none` playing `Infinity`. -/
def latencyExceeds : Option Int → Int → Bool
  | none, _ => false
  | some t, l => decide (t < l)

/-- One `processMutations` drain pass over the queue.  `budget` models the
deadline (`deadline.timeRemaining() <= 0` or the 1ms wall-clock slice): it
is the number of records the pass may consider before timing out, at which
point the remaining records stay queued.  A considered record is left
queued when its age since the gesture clock exceeds the threshold, or when
it is a text/attribute change whose resolved target is outside the
viewport; otherwise it is removed from the queue and dispatched.  Returns
(records still queued, document, records applied in order). -/
def processMutations (p : Policy) (th : Option Int) (gesture : Int)
    (vis : Nat → Bool) :
    Nat → List MutRecord → Doc →
      Except String (List MutRecord × Doc × List MutRecord)
  | _, [], d => .ok ([], d, [])
  | 0, q, d => .ok (q, d, [])
  | budget + 1, m :: rest, d =>
    if latencyExceeds th (m.timestamp - gesture) then
      match processMutations p th gesture vis budget rest d with
      | .error e => .error e
      | .ok (kept, d1, applied) => .ok (m :: kept, d1, applied)
    else
      let skipE : Except String Bool :=
        if m.isCharacterDataOrAttributes then
          match getNode d m.target with
          | some r =>
            match isElementInViewport d vis r with
            | .error e => .error e
            | .ok v => .ok (!v)
          | none => .ok false
        else .ok false
      match skipE with
      | .error e => .error e
      | .ok skip =>
        if skip then
          match processMutations p th gesture vis budget rest d with
          | .error e => .error e
          | .ok (kept, d1, applied) => .ok (m :: kept, d1, applied)
        else
          match applyMutation p d m with
          | .error e => .error e
          | .ok d1 =>
            match processMutations p th gesture vis budget rest d1 with
            | .error e => .error e
            | .ok (kept, d2, applied) => .ok (kept, d2, m :: applied)

/-- A `{pageX, pageY}` coordinate pair derived from a mouse or touch
event. -/
structure Touch where
  pageX : Int
  pageY : Int
deriving Repr, DecidableEq

/-- A local DOM event as seen by the proxy: its type, the `__id` of its
target, the target's current `value` when it has one, and the coordinates
`getTouch` would derive from it. -/
structure EventIn where
  type : String
  targetId : Option String
  targetValue : Option String
  touch : Option Touch
deriving Repr, DecidableEq

/-- The serialized event object posted to the worker. -/
structure SerializedEvent where
  type : String
  target : Option String
  valueProp : Option String
  pageX : Option Int
  pageY : Option Int
deriving Repr, DecidableEq

/-- `getTouch(e)`: derives `{pageX, pageY}` from `changedTouches`,
`touches`, or the event itself. -/
def getTouch (e : EventIn) : Option Touch :=
  e.touch

/-- Building the proxied `event` object: type, target id, the `value`
property for `change`/`input` events, and the scalar own properties copied
by the property loop (modelled by the coordinates). -/
def serializeEvent (e : EventIn) : SerializedEvent :=
  { type := e.type
    target := e.targetId
    valueProp := if e.type = "change" ∨ e.type = "input" then e.targetValue
      else none
    pageX := e.touch.map (·.pageX)
    pageY := e.touch.map (·.pageY) }

/-- The event proxy's module state: the gesture clock
(`timeOfLastUserGesture`) and the remembered `touchStart` coordinates. -/
structure ProxyState where
  timeOfLastUserGesture : Int
  touchStart : Option Touch
deriving Repr, DecidableEq

/-- `proxyEvent(e)` at wall-clock time `now`: first advances the gesture
clock, then suppresses a native `click` whenever `touchStart` is set
(posting nothing), otherwise serializes and posts the event; a
`touchstart` records its coordinates, and a `touchend` whose distance to
the recorded `touchstart` is strictly below 10px re-posts the serialized
event re-labeled as a `click`.  Returns the new state and the messages
posted to the worker, in order. -/
def proxyEvent (st : ProxyState) (now : Int) (e : EventIn) :
    ProxyState × List SerializedEvent :=
  let st1 := { st with timeOfLastUserGesture := now }
  if e.type = "click" ∧ st1.touchStart.isSome then (st1, [])
  else
    let event := serializeEvent e
    if e.type = "touchstart" then
      ({ st1 with touchStart := getTouch e }, [event])
    else if e.type = "touchend" then
      match st1.touchStart, getTouch e with
      | some ts, some te =>
        let dx := te.pageX - ts.pageX
        let dy := te.pageY - ts.pageY
        if dx * dx + dy * dy < 100 then
          (st1, [event, { event with type := "click" }])
        else (st1, [event])
      | _, _ => (st1, [event])
    else (st1, [event])

/-- Folding a timed event trace through `proxyEvent`, concatenating the
posted messages. -/
def runEvents (st : ProxyState) (trace : List (Int × EventIn)) :
    ProxyState × List SerializedEvent :=
  trace.foldl
    (fun acc te =>
      let (st1, out) := proxyEvent acc.1 te.1 te.2
      (st1, acc.2 ++ out))
    (st, [])

/-- The drain scheduler's environment state: the set of scheduled timeout
ids still pending, the remembered `mutationTimer` handle, the scheduled
idle-callback ids still pending, and an id counter. -/
structure SchedState where
  activeTimeouts : List Nat
  mutationTimer : Option Nat
  idleCallbacks : List Nat
  nextId : Nat
deriving Repr, DecidableEq

/-- `clearTimeout(handle)`: cancels the pending timeout with that id, if
any. -/
def clearTimeoutS (s : SchedState) (handle : Option Nat) : SchedState :=
  match handle with
  | none => s
  | some i => { s with activeTimeouts := s.activeTimeouts.filter (· ≠ i) }

/-- `setTimeout(processMutations, 100)`: schedules a fresh timeout and
returns its id. -/
def setTimeoutS (s : SchedState) : Nat × SchedState :=
  (s.nextId, { s with activeTimeouts := s.activeTimeouts ++ [s.nextId]
                      nextId := s.nextId + 1 })

/-- `requestIdleCallback(processMutations)`: schedules a fresh idle
callback and returns its id. -/
def requestIdleCallbackS (s : SchedState) : Nat × SchedState :=
  (s.nextId, { s with idleCallbacks := s.idleCallbacks ++ [s.nextId]
                      nextId := s.nextId + 1 })

/-- `processMutationsSoon()`: clears the remembered timer, schedules a new
100ms timeout (remembering its handle), and also requests an idle
callback — which is never cancelled. -/
def processMutationsSoon (s : SchedState) : SchedState :=
  let s1 := clearTimeoutS s s.mutationTimer
  let (tid, s2) := setTimeoutS s1
  let s3 := { s2 with mutationTimer := some tid }
  (requestIdleCallbackS s3).2

/-- The first statement of `processMutations`:
`clearTimeout(mutationTimer)`. -/
def processMutationsEntry (s : SchedState) : SchedState :=
  clearTimeoutS s s.mutationTimer

/-- Whether sanitization removes a materialized skeleton's subtree
entirely: DOMPurify detaches a subtree root exactly when the root is an
element whose tag is off the allow-list (a surviving root keeps the
subtree from vanishing, however its descendants fare). -/
def fullySanitizesAway (p : Policy) : Skeleton → Bool
  | .text _ _ => false
  | .elem nodeName _ _ _ _ _ => !p.allowedTag nodeName

end Renderer

namespace Fixture

open Renderer

/-- A concrete DOMPurify configuration for evaluating the embedding. -/
def testPolicy : Policy :=
  { allowedTag := fun t => ["BODY", "DIV", "SPAN", "P", "A", "BUTTON", "INPUT"].contains t
    allowedAttr := fun a => ["class", "id", "href", "type"].contains a }

/-- The text node bound to id `t1` in the base document. -/
def t1Data : NodeData :=
  ⟨3, "#text", "", [], [], "hello", [], some 1, some "t1"⟩

/-- The text node bound to id `t2` in the base document. -/
def t2Data : NodeData :=
  ⟨3, "#text", "", [], [], "world", [], some 2, some "t2"⟩

/-- A small hydrated document: a root container (ref 0) with two `DIV`
children bound to ids `p1`/`p2`, each holding one bound text node. -/
def baseDoc : Doc :=
  { store :=
      [(0, ⟨1, "BODY", "", [], [], "", [1, 2], none, none⟩),
       (1, ⟨1, "DIV", "", [], [], "", [3], some 0, some "p1"⟩),
       (2, ⟨1, "DIV", "", [], [], "", [4], some 0, some "p2"⟩),
       (3, t1Data),
       (4, t2Data)]
    nextRef := 5
    nodes := [("p1", 1), ("p2", 2), ("t1", 3), ("t2", 4)]
    root := 0
    sanCount := 0 }

/-- A skeleton whose subtree fully sanitizes away (`script` is not on the
allow-list). -/
def scriptSkeleton : Skeleton :=
  .elem "SCRIPT" "" [] [] [] "s1"

/-- A benign skeleton carrying one inline style entry. -/
def styledSkeleton : Skeleton :=
  .elem "DIV" "card" [("color", "red")] [] [] "d1"

/-- A benign `DIV` skeleton with worker id `n1`. -/
def divSkel : Skeleton :=
  .elem "DIV" "" [] [] [] "n1"

/-- Child-list record inserting `n1` under `p1`. -/
def recA : MutRecord :=
  .childList (.idStr "p1") [] [divSkel] .null .null 0

/-- Child-list record inserting `n1` under `p2`. -/
def recB : MutRecord :=
  .childList (.idStr "p2") [] [divSkel] .null .null 0

/-- Text-data record on `t1`. -/
def cdA : MutRecord :=
  .characterData (.idStr "t1") "x" 0

/-- Text-data record on `t2`. -/
def cdB : MutRecord :=
  .characterData (.idStr "t2") "y" 0

/-- The `children` list of node `r` in an apply outcome. -/
def childrenOf (e : Except String Doc) (r : Nat) : Option (List Nat) :=
  match e with
  | .ok d => (getData d r).map (·.children)
  | .error _ => none

/-- The sanitizer-invocation count of an apply outcome. -/
def sanCountOf (e : Except String Doc) : Option Nat :=
  match e with
  | .ok d => some d.sanCount
  | .error _ => none

/-- The `nodeValue` of node `r` in an apply outcome. -/
def nodeValueOf (e : Except String Doc) (r : Nat) : Option String :=
  match e with
  | .ok d => (getData d r).map (·.nodeValue)
  | .error _ => none

/-- A `touchstart` at (10, 20). -/
def evTouchStart : EventIn :=
  ⟨"touchstart", some "btn", none, some ⟨10, 20⟩⟩

/-- A `touchend` at (12, 21), within 10px of the touchstart. -/
def evTouchEnd : EventIn :=
  ⟨"touchend", some "btn", none, some ⟨12, 21⟩⟩

/-- The native click of the tap interaction. -/
def evClick1 : EventIn :=
  ⟨"click", some "btn", none, some ⟨12, 21⟩⟩

/-- A much later native click on another element, with no preceding tap. -/
def evClick2 : EventIn :=
  ⟨"click", some "other", none, some ⟨200, 300⟩⟩

/-- Tap interaction followed much later by an unrelated native click. -/
def tapTrace : List (Int × EventIn) :=
  [(0, evTouchStart), (50, evTouchEnd), (60, evClick1), (5000, evClick2)]

/-- A fresh scheduler environment. -/
def sched0 : SchedState :=
  ⟨[], none, [], 0⟩

/-- A viewport oracle under which no element is visible. -/
def visNone : Nat → Bool := fun _ => false

/-- A viewport oracle under which every element is visible. -/
def visAll : Nat → Bool := fun _ => true

/-- An attribute record on `p1`, received at time 0. -/
def attrRec : MutRecord :=
  .attributes (.idStr "p1") "class" "x" 0

end Fixture

namespace AmpScript

/-- Must match worker-dom's transfer phases. -/
def PhaseHydrating : Nat := 1

/-- The steady-state mutating phase. -/
def PhaseMutating : Nat := 2

/-- Size-contained elements up to 300px are allowed to mutate freely. -/
def MAX_FREE_MUTATION_HEIGHT : Int := 300

/-- The slice of `AmpScript` element state that `mutationPump_` reads and
writes: the user-activation tracker's answer, the host's layout kind and
layout-box height, the class list bits, and whether the worker has been
terminated. -/
structure ScriptState where
  userActive : Bool
  layoutSizeDefined : Bool
  layoutBoxHeight : Int
  hydrated : Bool
  broken : Bool
  terminated : Bool
deriving Repr, DecidableEq

/-- `mutationPump_(flushMutations, phase)`: during hydration the element
gains the `i-amphtml-hydrated` class.  The batch is admitted when the
phase is not MUTATING, or the user-activation tracker is active, or the
layout is size-defined with height at most `MAX_FREE_MUTATION_HEIGHT`.
An admitted batch flushes (the returned Bool); otherwise the worker is
terminated and the element swaps `i-amphtml-hydrated` for
`i-amphtml-broken`. -/
def mutationPump (s : ScriptState) (phase : Nat) : ScriptState × Bool :=
  let s1 := if phase = PhaseHydrating then { s with hydrated := true } else s
  let allowMutation :=
    (phase != PhaseMutating) || s1.userActive ||
      (s1.layoutSizeDefined && decide (s1.layoutBoxHeight ≤ MAX_FREE_MUTATION_HEIGHT))
  if allowMutation then (s1, true)
  else ({ s1 with terminated := true, hydrated := false, broken := true }, false)

end AmpScript

section Theorems

open Renderer Fixture

/-- C1: for every mutation flush batch, the hydrating phase always admits
the batch; in the mutating phase the batch is admitted iff the
user-activation tracker is active or the layout is size-defined with
layout-box height at most 300; a rejected batch terminates the worker and
swaps the `i-amphtml-hydrated` class for `i-amphtml-broken`. -/
theorem admission_batch_gating (s : AmpScript.ScriptState) (phase : Nat) :
    (phase = AmpScript.PhaseHydrating →
      (AmpScript.mutationPump s phase).2 = true) ∧
    (phase = AmpScript.PhaseMutating →
      ((AmpScript.mutationPump s phase).2 = true ↔
        s.userActive = true ∨
          (s.layoutSizeDefined = true ∧ s.layoutBoxHeight ≤ 300))) ∧
    ((AmpScript.mutationPump s phase).2 = false →
      (AmpScript.mutationPump s phase).1.terminated = true ∧
      (AmpScript.mutationPump s phase).1.broken = true ∧
      (AmpScript.mutationPump s phase).1.hydrated = false) := by
  rcases s with ⟨ua, lsd, ht, hy, br, te⟩
  refine ⟨?_, ?_, ?_⟩
  · intro h
    subst h
    simp [AmpScript.mutationPump, AmpScript.PhaseHydrating,
      AmpScript.PhaseMutating]
  · intro h
    subst h
    by_cases hh : ht ≤ (300 : Int) <;> cases ua <;> cases lsd <;>
      simp_all [AmpScript.mutationPump, AmpScript.PhaseHydrating,
        AmpScript.PhaseMutating, AmpScript.MAX_FREE_MUTATION_HEIGHT] <;>
      (rw [if_neg (show ¬ht ≤ (300 : Int) by omega)]; simp; omega)
  · intro h
    have key : (AmpScript.mutationPump ⟨ua, lsd, ht, hy, br, te⟩ phase).2 = true ∨
        ((AmpScript.mutationPump ⟨ua, lsd, ht, hy, br, te⟩ phase).1.terminated = true ∧
          (AmpScript.mutationPump ⟨ua, lsd, ht, hy, br, te⟩ phase).1.broken = true ∧
          (AmpScript.mutationPump ⟨ua, lsd, ht, hy, br, te⟩ phase).1.hydrated = false) := by
      by_cases hp : phase = AmpScript.PhaseHydrating
      · simp only [AmpScript.mutationPump, if_pos hp]
        split <;> simp
      · simp only [AmpScript.mutationPump, if_neg hp]
        split <;> simp
    rcases key with k | k
    · rw [h] at k
      cases k
    · exact k

/-- C1 witness: in the mutating phase with an inactive user but a
size-defined 200px layout, the batch is admitted. -/
theorem admission_batch_gating_witness :
    (AmpScript.mutationPump ⟨false, true, 200, true, false, false⟩ 2).2 = true :=
  ((admission_batch_gating ⟨false, true, 200, true, false, false⟩ 2).2.1
    rfl).mpr (Or.inr ⟨rfl, by norm_num⟩)

/-- C10: every proxied event — including a suppressed native click —
advances the gesture clock to the current time as the first step, so the
clock is monotonically non-decreasing and a suppressed click refreshes the
mutation-admission recency window exactly as a forwarded event would. -/
theorem gesture_clock_always_advances (st : Renderer.ProxyState) (now : Int)
    (e : Renderer.EventIn) (h : st.timeOfLastUserGesture ≤ now) :
    (Renderer.proxyEvent st now e).1.timeOfLastUserGesture = now ∧
    st.timeOfLastUserGesture ≤
      (Renderer.proxyEvent st now e).1.timeOfLastUserGesture ∧
    (e.type = "click" → st.touchStart.isSome = true →
      (Renderer.proxyEvent st now e).2 = []) := by
  have hclock : (Renderer.proxyEvent st now e).1.timeOfLastUserGesture = now := by
    simp only [Renderer.proxyEvent]
    repeat' split
    all_goals rfl
  refine ⟨hclock, by rw [hclock]; exact h, ?_⟩
  intro h1 h2
  unfold Renderer.proxyEvent
  rw [if_pos ⟨h1, by simp [h2]⟩]

/-- C10 witness: a suppressed click (touchStart is set) still advances the
clock from 5 to 7 while posting nothing. -/
theorem gesture_clock_always_advances_witness :
    (Renderer.proxyEvent ⟨5, some ⟨1, 1⟩⟩ 7 Fixture.evClick1).1.timeOfLastUserGesture = 7 ∧
    (Renderer.proxyEvent ⟨5, some ⟨1, 1⟩⟩ 7 Fixture.evClick1).2 = [] :=
  ⟨(gesture_clock_always_advances ⟨5, some ⟨1, 1⟩⟩ 7 Fixture.evClick1 (by decide)).1,
   (gesture_clock_always_advances ⟨5, some ⟨1, 1⟩⟩ 7 Fixture.evClick1 (by decide)).2.2
     rfl rfl⟩

/-- C2 (code bug): a record whose target id was never bound is indeed not
applied, but dispatching it crashes the coordinator: `getNode` yields
`undefined` and the apply routine dereferences it, so a `properties` record
(right after its own `console.assert(node)` diagnostic) and a
`characterData` record both throw an uncaught `TypeError` instead of
failing recoverably. -/
theorem unbound_target_dispatch_throws :
    Renderer.applyMutation Fixture.testPolicy Fixture.baseDoc
        (.properties (.idStr "ghost") "value" "abc" 0) =
      .error "TypeError" ∧
    Renderer.applyMutation Fixture.testPolicy Fixture.baseDoc
        (.characterData (.idStr "ghost") "abc" 0) =
      .error "TypeError" ∧
    Renderer.getNode Fixture.baseDoc (.idStr "ghost") = none :=
  ⟨rfl, rfl, rfl⟩

/-- C3 (code bug): materializing a skeleton whose subtree fully sanitizes
away (a `SCRIPT` root) still succeeds with no rejection signal, and
`createNode` binds the skeleton id in the identity map anyway — the net
new NodeId binding the claim rules out. -/
theorem rejected_subtree_still_binds_identity :
    Renderer.fullySanitizesAway Fixture.testPolicy Fixture.scriptSkeleton = true ∧
    (Renderer.createNode Fixture.testPolicy Fixture.scriptSkeleton true
        Fixture.baseDoc).map
        (fun rd => (rd.1, Renderer.lookupA rd.2.nodes "s1")) =
      .ok (5, some 5) :=
  ⟨rfl, rfl⟩

/-- C8 (code bug): materializing an element skeleton with a non-empty
inline style map crashes: the style loop assigns `node.style[i]` where `i`
is not in scope, so a `ReferenceError` is thrown instead of each style
entry being applied under its own property name. -/
theorem style_loop_reference_error :
    Renderer.createNode Fixture.testPolicy Fixture.styledSkeleton true
        Fixture.baseDoc =
      .error "ReferenceError: i is not defined" :=
  rfl

/-- C4 counterexample: applying a text-data (characterData) record commits
the new value verbatim with zero sanitizer invocations — the apply routine
does not re-run the Sanitizer Gate on the target. -/
theorem characterData_commits_unsanitized :
    Fixture.sanCountOf
        (Renderer.applyMutation Fixture.testPolicy Fixture.baseDoc
          (.characterData (.idStr "t1") "<img onerror=x>" 0)) =
      some 0 ∧
    Fixture.nodeValueOf
        (Renderer.applyMutation Fixture.testPolicy Fixture.baseDoc
          (.characterData (.idStr "t1") "<img onerror=x>" 0)) 3 =
      some "<img onerror=x>" ∧
    Fixture.baseDoc.sanCount = 0 :=
  ⟨rfl, rfl, rfl⟩

/-- C5 counterexample: after the tap interaction, the `touchStart` state is
never cleared, so the native click of a much later interaction with no
preceding tap (`evClick2`) is also suppressed instead of being forwarded:
the full trace posts only the touchstart, the touchend, and the
synthesized click. -/
theorem later_native_click_also_suppressed :
    (Renderer.runEvents ⟨0, none⟩ Fixture.tapTrace).2 =
      [Renderer.serializeEvent Fixture.evTouchStart,
       Renderer.serializeEvent Fixture.evTouchEnd,
       { Renderer.serializeEvent Fixture.evTouchEnd with type := "click" }] := by
  decide

/-- C5 amended: a `touchend` strictly within 10px of the recorded
`touchstart` is re-posted re-labeled as a `click`; but the suppression is
not limited to the next native click of that interaction: as long as
`touchStart` is set, every native click is suppressed, and no event other
than a `touchstart` ever changes `touchStart` — so it is never cleared. -/
theorem tap_synthesis_and_sticky_suppression (st : Renderer.ProxyState)
    (now : Int) (e : Renderer.EventIn) (ts te : Renderer.Touch)
    (h1 : e.type = "touchend") (h2 : st.touchStart = some ts)
    (h3 : Renderer.getTouch e = some te)
    (h4 : (te.pageX - ts.pageX) * (te.pageX - ts.pageX) +
        (te.pageY - ts.pageY) * (te.pageY - ts.pageY) < 100) :
    (Renderer.proxyEvent st now e).2 =
      [Renderer.serializeEvent e,
       { Renderer.serializeEvent e with type := "click" }] ∧
    (∀ (st2 : Renderer.ProxyState) (now2 : Int) (e2 : Renderer.EventIn),
      e2.type = "click" → st2.touchStart.isSome = true →
        (Renderer.proxyEvent st2 now2 e2).2 = [] ∧
        (Renderer.proxyEvent st2 now2 e2).1.touchStart = st2.touchStart) ∧
    (∀ (st2 : Renderer.ProxyState) (now2 : Int) (e2 : Renderer.EventIn),
      e2.type ≠ "touchstart" →
        (Renderer.proxyEvent st2 now2 e2).1.touchStart = st2.touchStart) := by
  refine ⟨?_, ?_, ?_⟩
  · simp only [Renderer.proxyEvent, h1, h2]
    rw [h3]
    simp [h4]
  · intro st2 now2 e2 hc hs
    constructor <;>
      · simp only [Renderer.proxyEvent]
        rw [if_pos ⟨hc, hs⟩]
  · intro st2 now2 e2 hns
    simp only [Renderer.proxyEvent]
    repeat' split
    all_goals first | rfl | simp_all

/-- C5 amended witness: a touchend at (3,4) after a touchstart at (0,0)
(distance 5 < 10) is re-posted as a click. -/
theorem tap_synthesis_and_sticky_suppression_witness :
    (Renderer.proxyEvent ⟨0, some ⟨0, 0⟩⟩ 5
        ⟨"touchend", some "btn", none, some ⟨3, 4⟩⟩).2 =
      [Renderer.serializeEvent ⟨"touchend", some "btn", none, some ⟨3, 4⟩⟩,
       { Renderer.serializeEvent ⟨"touchend", some "btn", none, some ⟨3, 4⟩⟩ with
           type := "click" }] :=
  (tap_synthesis_and_sticky_suppression ⟨0, some ⟨0, 0⟩⟩ 5
    ⟨"touchend", some "btn", none, some ⟨3, 4⟩⟩ ⟨0, 0⟩ ⟨3, 4⟩
    rfl rfl rfl (by decide)).1

/-- C6 counterexample: two `processMutationsSoon` requests in a row leave
two pending idle-callback drains (ids 1 and 3) plus one pending timeout —
the idle-callback path accumulates instead of superseding, so more than
one rescheduled drain is pending. -/
theorem idle_callback_drains_accumulate :
    (Renderer.processMutationsSoon
        (Renderer.processMutationsSoon Fixture.sched0)).idleCallbacks =
      [1, 3] ∧
    (Renderer.processMutationsSoon
        (Renderer.processMutationsSoon Fixture.sched0)).activeTimeouts =
      [2] := by
  decide

/-- C6 amended: the fixed-delay timer path does supersede — after any
`processMutationsSoon` exactly one timeout is pending (the previous one is
cancelled) and entering `processMutations` cancels it — but each request
also registers one more idle callback, which nothing ever cancels. -/
theorem timer_supersedes_idle_accumulates (s : Renderer.SchedState)
    (hinv : s.activeTimeouts = s.mutationTimer.toList) :
    (Renderer.processMutationsSoon s).activeTimeouts = [s.nextId] ∧
    (Renderer.processMutationsSoon s).mutationTimer = some s.nextId ∧
    (Renderer.processMutationsSoon s).idleCallbacks =
      s.idleCallbacks ++ [s.nextId + 1] ∧
    (Renderer.processMutationsEntry
        (Renderer.processMutationsSoon s)).activeTimeouts = [] := by
  rcases s with ⟨at0, mt, ic, ni⟩
  cases mt <;>
    simp_all [Renderer.processMutationsSoon, Renderer.processMutationsEntry,
      Renderer.clearTimeoutS, Renderer.setTimeoutS,
      Renderer.requestIdleCallbackS, Option.toList, List.filter]

/-- C6 amended witness: from a fresh scheduler, one request leaves exactly
timeout 0 pending and idle callback 1 registered. -/
theorem timer_supersedes_idle_accumulates_witness :
    (Renderer.processMutationsSoon Fixture.sched0).activeTimeouts = [0] ∧
    (Renderer.processMutationsSoon Fixture.sched0).idleCallbacks = [0 + 1] :=
  ⟨(timer_supersedes_idle_accumulates Fixture.sched0 rfl).1,
   (timer_supersedes_idle_accumulates Fixture.sched0 rfl).2.2.1⟩

/-- C9 counterexample: two child-list records with distinct targets (`p1`
and `p2`) both inserting the node with worker id `n1`: applied as
[A, B] the node (ref 5) ends under `p2`; applied as [B, A] — a permutation
preserving each target's relative order — it ends under `p1`, so the final
document states differ. -/
theorem childList_distinct_targets_order_matters :
    Fixture.childrenOf
        (Renderer.applyAll Fixture.testPolicy [Fixture.recA, Fixture.recB]
          Fixture.baseDoc) 1 = some [3] ∧
    Fixture.childrenOf
        (Renderer.applyAll Fixture.testPolicy [Fixture.recA, Fixture.recB]
          Fixture.baseDoc) 2 = some [4, 5] ∧
    Fixture.childrenOf
        (Renderer.applyAll Fixture.testPolicy [Fixture.recB, Fixture.recA]
          Fixture.baseDoc) 1 = some [3, 5] ∧
    Fixture.childrenOf
        (Renderer.applyAll Fixture.testPolicy [Fixture.recB, Fixture.recA]
          Fixture.baseDoc) 2 = some [4] := by
  decide

/-- Folding a sanCount-preserving step over a list preserves `sanCount`. -/
theorem foldl_sanCount_pres (f : Renderer.Doc → Nat → Renderer.Doc)
    (hf : ∀ d c, (f d c).sanCount = d.sanCount) :
    ∀ (l : List Nat) (d : Renderer.Doc), (l.foldl f d).sanCount = d.sanCount := by
  intro l
  induction l with
  | nil => intro d; rfl
  | cons c t ih => intro d; rw [List.foldl_cons, ih, hf]

/-- The in-place purification walk never touches the sanitizer-invocation
counter (only `domPurifyInPlace` increments it, once per call). -/
theorem purifyRef_sanCount (p : Renderer.Policy) :
    ∀ (fuel r : Nat) (d : Renderer.Doc),
      (Renderer.purifyRef p fuel r d).sanCount = d.sanCount := by
  intro fuel
  induction fuel with
  | zero => intro r d; rfl
  | succ n ih =>
    intro r d
    unfold Renderer.purifyRef
    cases hg : Renderer.getData d r with
    | none => rfl
    | some nd =>
      show (if nd.nodeType = 1 then _ else d).sanCount = d.sanCount
      by_cases ht : nd.nodeType = 1
      · rw [if_pos ht]
        rw [foldl_sanCount_pres (fun acc c => Renderer.purifyRef p n c acc)
          (fun dd c => ih c dd)]
        exact foldl_sanCount_pres
          (fun acc c => Renderer.updData acc c
            (fun x => { x with parent := none }))
          (fun _ _ => rfl) _ d
      · rw [if_neg ht]

/-- Key lookup after an in-place update at that key. -/
theorem lookupA_updA {α β : Type} [DecidableEq α] (l : List (α × β)) (a : α)
    (f : β → β) :
    Renderer.lookupA (Renderer.updA l a f) a = (Renderer.lookupA l a).map f := by
  induction l with
  | nil => rfl
  | cons p t ih =>
    obtain ⟨k, v⟩ := p
    by_cases h : k = a
    · simp only [Renderer.updA, if_pos h, Renderer.lookupA]
      rfl
    · simp only [Renderer.updA, if_neg h, Renderer.lookupA]
      exact ih

/-- C4 amended: the attribute and property apply routines run the
Sanitizer Gate on the target exactly once per record (after setting the
value, in place), while the text-data (characterData) routine performs no
sanitizer invocation at all and commits the new value directly. -/
theorem apply_routines_sanitizer_usage (p : Renderer.Policy)
    (d : Renderer.Doc) (target : Renderer.NodeRefSpec) (name v : String)
    (ts : Int) (r : Nat) (h : Renderer.getNode d target = some r) :
    (∃ d1, Renderer.applyMutation p d (.attributes target name v ts) = .ok d1 ∧
      d1.sanCount = d.sanCount + 1) ∧
    (∃ d1, Renderer.applyMutation p d (.properties target name v ts) = .ok d1 ∧
      d1.sanCount = d.sanCount + 1) ∧
    (∃ d1, Renderer.applyMutation p d (.characterData target v ts) = .ok d1 ∧
      d1.sanCount = d.sanCount ∧
      (Renderer.getData d1 r).map (·.nodeValue) =
        (Renderer.getData d r).map (fun _ => v)) := by
  refine ⟨⟨Renderer.domPurifyInPlace p (Renderer.updData d r
        (fun x => { x with attrs := Renderer.mapSet x.attrs name v })) r, ?_, ?_⟩,
      ⟨Renderer.domPurifyInPlace p (Renderer.updData d r
        (fun x => { x with props := Renderer.mapSet x.props name v })) r, ?_, ?_⟩,
      ⟨Renderer.updData d r (fun x => { x with nodeValue := v }), ?_, ?_, ?_⟩⟩
  · simp only [Renderer.applyMutation, h]
  · simp only [Renderer.domPurifyInPlace]
    rw [purifyRef_sanCount]
    rfl
  · simp only [Renderer.applyMutation, h]
  · simp only [Renderer.domPurifyInPlace]
    rw [purifyRef_sanCount]
    rfl
  · simp only [Renderer.applyMutation, h]
  · rfl
  · simp only [Renderer.updData, Renderer.getData]
    rw [lookupA_updA]
    cases Renderer.lookupA d.store r <;> rfl

/-- C4 amended witness: on the base document, an attribute record on `p1`
bumps the sanitizer count to 1. -/
theorem apply_routines_sanitizer_usage_witness :
    Renderer.getNode Fixture.baseDoc (.idStr "p1") = some 1 ∧
    (∃ d1, Renderer.applyMutation Fixture.testPolicy Fixture.baseDoc
        (.attributes (.idStr "p1") "class" "x" 0) = .ok d1 ∧
      d1.sanCount = Fixture.baseDoc.sanCount + 1) :=
  ⟨by decide,
   (apply_routines_sanitizer_usage Fixture.testPolicy Fixture.baseDoc
     (.idStr "p1") "class" "x" 0 1 (by decide)).1⟩

/-- C7 counterexample: a fresh (age 0, well within the 1000ms threshold)
attribute record whose resolved target is outside the viewport is left
queued by the drain pass — not applied — refuting "applied iff age is
within the threshold". -/
theorem fresh_offscreen_record_left_queued :
    Renderer.processMutations Fixture.testPolicy
        (Renderer.GESTURE_TO_MUTATION_THRESHOLD true) 0 Fixture.visNone 1
        [Fixture.attrRec] Fixture.baseDoc =
      .ok ([Fixture.attrRec], Fixture.baseDoc, []) ∧
    Renderer.latencyExceeds (Renderer.GESTURE_TO_MUTATION_THRESHOLD true)
        (Fixture.attrRec.timestamp - 0) = false :=
  ⟨rfl, rfl⟩

/-- A drain pass neither drops nor duplicates records: the records still
queued plus the records applied are, together, a permutation of the
original queue. -/
theorem processMutations_no_loss (p : Renderer.Policy) (th : Option Int)
    (g : Int) (vis : Nat → Bool) :
    ∀ (q : List Renderer.MutRecord) (budget : Nat) (dq : Renderer.Doc)
      (kept applied : List Renderer.MutRecord) (d1 : Renderer.Doc),
      Renderer.processMutations p th g vis budget q dq =
          .ok (kept, d1, applied) →
        (kept ++ applied).Perm q := by
  intro q
  induction q with
  | nil =>
    intro budget dq kept applied d1 h
    cases budget <;>
      · simp only [Renderer.processMutations, Except.ok.injEq,
          Prod.mk.injEq] at h
        obtain ⟨h1, h2, h3⟩ := h
        subst h1; subst h3
        simp
  | cons m rest ih =>
    intro budget dq kept applied d1 h
    cases budget with
    | zero =>
      simp only [Renderer.processMutations, Except.ok.injEq,
        Prod.mk.injEq] at h
      obtain ⟨h1, h2, h3⟩ := h
      subst h1; subst h3
      simp
    | succ n =>
      by_cases hlat : Renderer.latencyExceeds th (m.timestamp - g) = true
      · -- gesture-age branch: record kept
        cases hrec : Renderer.processMutations p th g vis n rest dq with
        | error e =>
          simp [Renderer.processMutations, hlat, hrec] at h
        | ok trip =>
          obtain ⟨kept2, d2, applied2⟩ := trip
          simp only [Renderer.processMutations, hlat, if_true, hrec,
            Except.ok.injEq, Prod.mk.injEq] at h
          obtain ⟨h1, h2, h3⟩ := h
          subst h1; subst h3
          exact List.Perm.cons m (ih n dq kept2 applied2 d2 hrec)
      · -- gesture check passed: viewport skip or apply
        cases hsk : (if m.isCharacterDataOrAttributes = true then
            match Renderer.getNode dq m.target with
            | some r =>
              match Renderer.isElementInViewport dq vis r with
              | Except.error e => Except.error e
              | Except.ok v => Except.ok (!v)
            | none => Except.ok false
          else Except.ok false) with
        | error e =>
          simp [Renderer.processMutations, hlat, hsk] at h
        | ok skip =>
          cases skip with
          | true =>
            -- skipped for viewport reasons: record kept
            cases hrec : Renderer.processMutations p th g vis n rest dq with
            | error e =>
              simp [Renderer.processMutations, hlat, hsk, hrec] at h
            | ok trip =>
              obtain ⟨kept2, d2, applied2⟩ := trip
              simp [Renderer.processMutations, hlat, hsk, hrec] at h
              obtain ⟨h1, h2, h3⟩ := h
              subst h1; subst h3
              exact List.Perm.cons m (ih n dq kept2 applied2 d2 hrec)
          | false =>
            -- applied: record moves to the applied list
            cases happ : Renderer.applyMutation p dq m with
            | error e =>
              simp [Renderer.processMutations, hlat, hsk, happ] at h
            | ok d2 =>
              cases hrec : Renderer.processMutations p th g vis n rest d2 with
              | error e =>
                simp [Renderer.processMutations, hlat, hsk, happ, hrec] at h
              | ok trip =>
                obtain ⟨kept2, d3, applied2⟩ := trip
                simp [Renderer.processMutations, hlat, hsk, happ,
                  hrec] at h
                obtain ⟨h1, h2, h3⟩ := h
                subst h1; subst h3
                exact List.perm_middle.trans
                  (List.Perm.cons m (ih n d2 kept2 applied2 d3 hrec))

/-- At the head of the drain loop, a record whose age since the gesture
clock exceeds the threshold is left queued: the pass result is the tail's
result with the record put back in front, the document untouched by it. -/
theorem processMutations_step_stale (p : Renderer.Policy) (T gesture : Int)
    (vis : Nat → Bool) (m : Renderer.MutRecord)
    (rest : List Renderer.MutRecord) (d : Renderer.Doc) (budget : Nat)
    (hlat : T < m.timestamp - gesture) :
    Renderer.processMutations p (some T) gesture vis (budget + 1)
        (m :: rest) d =
      (Renderer.processMutations p (some T) gesture vis budget rest d).map
        (fun x => (m :: x.1, x.2)) := by
  have hl : Renderer.latencyExceeds (some T) (m.timestamp - gesture) = true := by
    simp [Renderer.latencyExceeds]
    omega
  cases hrec : Renderer.processMutations p (some T) gesture vis budget rest d with
  | error e => simp [Renderer.processMutations, hl, hrec, Except.map]
  | ok trip =>
    obtain ⟨k, d1, a⟩ := trip
    simp [Renderer.processMutations, hl, hrec, Except.map]

/-- At the head of the drain loop, a text/attribute record within the age
threshold whose resolved target fails the viewport test is left queued,
exactly like a stale record. -/
theorem processMutations_step_offscreen (p : Renderer.Policy)
    (T gesture : Int) (vis : Nat → Bool) (m : Renderer.MutRecord)
    (rest : List Renderer.MutRecord) (d : Renderer.Doc) (budget : Nat)
    (hage : m.timestamp - gesture ≤ T)
    (hcda : m.isCharacterDataOrAttributes = true) (r : Nat)
    (hr : Renderer.getNode d m.target = some r)
    (hv : Renderer.isElementInViewport d vis r = .ok false) :
    Renderer.processMutations p (some T) gesture vis (budget + 1)
        (m :: rest) d =
      (Renderer.processMutations p (some T) gesture vis budget rest d).map
        (fun x => (m :: x.1, x.2)) := by
  have hl : Renderer.latencyExceeds (some T) (m.timestamp - gesture) = false := by
    simp [Renderer.latencyExceeds]
    omega
  cases hrec : Renderer.processMutations p (some T) gesture vis budget rest d with
  | error e => simp [Renderer.processMutations, hl, hcda, hr, hv, hrec, Except.map]
  | ok trip =>
    obtain ⟨k, d1, a⟩ := trip
    simp [Renderer.processMutations, hl, hcda, hr, hv, hrec, Except.map]

/-- At the head of the drain loop, a record within the age threshold that
is not skipped by the viewport check — a child-list or property record, or
a text/attribute record whose target passes the viewport test or does not
resolve — is removed from the queue and dispatched to its apply routine,
the rest of the pass continuing on the resulting document. -/
theorem processMutations_step_dispatch (p : Renderer.Policy)
    (T gesture : Int) (vis : Nat → Bool) (m : Renderer.MutRecord)
    (rest : List Renderer.MutRecord) (d : Renderer.Doc) (budget : Nat)
    (hage : m.timestamp - gesture ≤ T)
    (hdisp : m.isCharacterDataOrAttributes = false ∨
      Renderer.getNode d m.target = none ∨
      ∃ r, Renderer.getNode d m.target = some r ∧
        Renderer.isElementInViewport d vis r = .ok true) :
    Renderer.processMutations p (some T) gesture vis (budget + 1)
        (m :: rest) d =
      (Renderer.applyMutation p d m).bind (fun d2 =>
        (Renderer.processMutations p (some T) gesture vis budget rest
          d2).map (fun x => (x.1, x.2.1, m :: x.2.2))) := by
  have hl : Renderer.latencyExceeds (some T) (m.timestamp - gesture) = false := by
    simp [Renderer.latencyExceeds]
    omega
  rcases hdisp with hno | hnone | ⟨r, hr, hv⟩
  · cases happ : Renderer.applyMutation p d m with
    | error e => simp [Renderer.processMutations, hl, hno, happ, Except.bind]
    | ok d2 =>
      cases hrec : Renderer.processMutations p (some T) gesture vis budget
          rest d2 with
      | error e =>
        simp [Renderer.processMutations, hl, hno, happ, hrec, Except.bind,
          Except.map]
      | ok trip =>
        obtain ⟨k, d1, a⟩ := trip
        simp [Renderer.processMutations, hl, hno, happ, hrec, Except.bind,
          Except.map]
  · cases happ : Renderer.applyMutation p d m with
    | error e => simp [Renderer.processMutations, hl, hnone, happ, Except.bind]
    | ok d2 =>
      cases hrec : Renderer.processMutations p (some T) gesture vis budget
          rest d2 with
      | error e =>
        simp [Renderer.processMutations, hl, hnone, happ, hrec, Except.bind,
          Except.map]
      | ok trip =>
        obtain ⟨k, d1, a⟩ := trip
        simp [Renderer.processMutations, hl, hnone, happ, hrec, Except.bind,
          Except.map]
  · cases happ : Renderer.applyMutation p d m with
    | error e => simp [Renderer.processMutations, hl, hr, hv, happ, Except.bind]
    | ok d2 =>
      cases hrec : Renderer.processMutations p (some T) gesture vis budget
          rest d2 with
      | error e =>
        simp [Renderer.processMutations, hl, hr, hv, happ, hrec, Except.bind,
          Except.map]
      | ok trip =>
        obtain ⟨k, d1, a⟩ := trip
        simp [Renderer.processMutations, hl, hr, hv, happ, hrec, Except.bind,
          Except.map]

/-- C7 amended: at the moment the drain pass considers any record — of any
variant — the record is left queued when its age since the Gesture Clock
exceeds the threshold, and likewise when it is a text/attribute record
whose resolved target fails the viewport test; in every other admitted
case (child-list and property records, and text/attribute records whose
target passes the viewport test or does not resolve) it is removed from
the queue and dispatched to its apply routine.  The pass never drops or
duplicates records — the records still queued plus those applied permute
the original queue — and a gesture-skipped record is dispatched by a later
pass whose gesture clock brings its age within the threshold, viewport
permitting. -/
theorem drain_admission_gesture_and_viewport (p : Renderer.Policy)
    (T gesture : Int) (vis : Nat → Bool) (m : Renderer.MutRecord)
    (rest : List Renderer.MutRecord) (d : Renderer.Doc) (budget : Nat) :
    (T < m.timestamp - gesture →
      Renderer.processMutations p (some T) gesture vis (budget + 1)
          (m :: rest) d =
        (Renderer.processMutations p (some T) gesture vis budget rest d).map
          (fun x => (m :: x.1, x.2))) ∧
    (m.timestamp - gesture ≤ T → m.isCharacterDataOrAttributes = true →
      ∀ r, Renderer.getNode d m.target = some r →
        Renderer.isElementInViewport d vis r = .ok false →
        Renderer.processMutations p (some T) gesture vis (budget + 1)
            (m :: rest) d =
          (Renderer.processMutations p (some T) gesture vis budget rest
            d).map (fun x => (m :: x.1, x.2))) ∧
    (m.timestamp - gesture ≤ T →
      (m.isCharacterDataOrAttributes = false ∨
        Renderer.getNode d m.target = none ∨
        ∃ r, Renderer.getNode d m.target = some r ∧
          Renderer.isElementInViewport d vis r = .ok true) →
      Renderer.processMutations p (some T) gesture vis (budget + 1)
          (m :: rest) d =
        (Renderer.applyMutation p d m).bind (fun d2 =>
          (Renderer.processMutations p (some T) gesture vis budget rest
            d2).map (fun x => (x.1, x.2.1, m :: x.2.2)))) ∧
    (∀ (q : List Renderer.MutRecord) (budget2 : Nat)
        (dq d1 : Renderer.Doc) (kept applied : List Renderer.MutRecord),
      Renderer.processMutations p (some T) gesture vis budget2 q dq =
          .ok (kept, d1, applied) →
        (kept ++ applied).Perm q) ∧
    (T < m.timestamp - gesture → ∀ g2 : Int, m.timestamp - g2 ≤ T →
      (m.isCharacterDataOrAttributes = false ∨
        Renderer.getNode d m.target = none ∨
        ∃ r, Renderer.getNode d m.target = some r ∧
          Renderer.isElementInViewport d vis r = .ok true) →
      Renderer.processMutations p (some T) g2 vis (budget + 1)
          (m :: rest) d =
        (Renderer.applyMutation p d m).bind (fun d2 =>
          (Renderer.processMutations p (some T) g2 vis budget rest
            d2).map (fun x => (x.1, x.2.1, m :: x.2.2)))) := by
  refine ⟨processMutations_step_stale p T gesture vis m rest d budget,
    ?_, ?_, ?_, ?_⟩
  · intro hage hcda r hr hv
    exact processMutations_step_offscreen p T gesture vis m rest d budget
      hage hcda r hr hv
  · intro hage hdisp
    exact processMutations_step_dispatch p T gesture vis m rest d budget
      hage hdisp
  · intro q budget2 dq d1 kept applied hq
    exact processMutations_no_loss p (some T) gesture vis q budget2 dq
      kept applied d1 hq
  · intro _ g2 hage2 hdisp
    exact processMutations_step_dispatch p T g2 vis m rest d budget
      hage2 hdisp

/-- C7 amended witness: the fresh offscreen attribute record on `p1` — age
0, within the 1000ms threshold — is left queued by the pass through the
viewport-skip clause. -/
theorem drain_admission_gesture_and_viewport_witness :
    Fixture.attrRec.timestamp - 0 ≤ 1000 ∧
    Renderer.processMutations Fixture.testPolicy (some 1000) 0
        Fixture.visNone 1 [Fixture.attrRec] Fixture.baseDoc =
      (Renderer.processMutations Fixture.testPolicy (some 1000) 0
          Fixture.visNone 0 [] Fixture.baseDoc).map
        (fun x => (Fixture.attrRec :: x.1, x.2)) :=
  ⟨by decide,
   (drain_admission_gesture_and_viewport Fixture.testPolicy 1000 0
       Fixture.visNone Fixture.attrRec [] Fixture.baseDoc 0).2.1
     (by decide) rfl 1 rfl rfl⟩

/-- Folding commuting steps over permuted lists, with commutation needed
only at states satisfying a step-preserved invariant. -/
theorem foldl_perm_inv {α β : Type} (f : β → α → β) (P : β → Prop) :
    ∀ {l l2 : List α}, l.Perm l2 →
      (∀ a ∈ l, ∀ b, P b → P (f b a)) →
      (∀ a ∈ l, ∀ a2 ∈ l, ∀ b, P b → f (f b a) a2 = f (f b a2) a) →
      ∀ b, P b → l.foldl f b = l2.foldl f b := by
  intro l l2 hperm
  induction hperm with
  | nil =>
    intro _ _ b _
    rfl
  | cons x hp ih =>
    intro hpres hcomm b hb
    simp only [List.foldl_cons]
    exact ih (fun a ha => hpres a (List.mem_cons_of_mem x ha))
      (fun a ha a2 ha2 => hcomm a (List.mem_cons_of_mem x ha) a2
        (List.mem_cons_of_mem x ha2))
      (f b x) (hpres x (List.mem_cons_self x _) b hb)
  | swap x y l =>
    intro hpres hcomm b hb
    simp only [List.foldl_cons]
    rw [hcomm y (by simp) x (by simp) b hb]
  | trans hp hq ih ihq =>
    intro hpres hcomm b hb
    rw [ih hpres hcomm b hb]
    exact ihq (fun a ha => hpres a (hp.mem_iff.mpr ha))
      (fun a ha a2 ha2 => hcomm a (hp.mem_iff.mpr ha) a2 (hp.mem_iff.mpr ha2))
      b hb

/-- In-place updates at distinct keys commute. -/
theorem updA_comm {α β : Type} [DecidableEq α] (s : List (α × β))
    (r1 r2 : α) (f1 f2 : β → β) (hne : r1 ≠ r2) :
    Renderer.updA (Renderer.updA s r1 f1) r2 f2 =
      Renderer.updA (Renderer.updA s r2 f2) r1 f1 := by
  induction s with
  | nil => rfl
  | cons p t ih =>
    obtain ⟨k, v⟩ := p
    by_cases h1 : k = r1 <;> by_cases h2 : k = r2
    · exact absurd (h1.symm.trans h2) hne
    · simp only [Renderer.updA, if_pos h1, if_neg h2, ih]
    · simp only [Renderer.updA, if_neg h1, if_pos h2, ih]
    · simp only [Renderer.updA, if_neg h1, if_neg h2, ih]

/-- `getNode` reads only the identity map and the root reference. -/
theorem getNode_congr (d1 d : Renderer.Doc) (h1 : d1.nodes = d.nodes)
    (h2 : d1.root = d.root) (s : Renderer.NodeRefSpec) :
    Renderer.getNode d1 s = Renderer.getNode d s := by
  cases s <;> simp [Renderer.getNode, h1, h2]

/-- A record satisfying `isCharacterData` is a `characterData` record. -/
theorem isCharacterData_shape (m : Renderer.MutRecord)
    (h : m.isCharacterData = true) :
    ∃ spec v ts, m = Renderer.MutRecord.characterData spec v ts := by
  cases m with
  | characterData spec v ts => exact ⟨spec, v, ts, rfl⟩
  | childList t r a pv nx ts => simp [Renderer.MutRecord.isCharacterData] at h
  | attributes t n v ts => simp [Renderer.MutRecord.isCharacterData] at h
  | properties t n v ts => simp [Renderer.MutRecord.isCharacterData] at h

/-- C9 amended: restricted to text-data (characterData) records resolving
to pairwise-distinct live nodes, applying the sequence in any permutation
yields the same final document state; the unrestricted claim fails for
child-list records, which can move one node between two distinct
targets. -/
theorem characterData_distinct_targets_commute (p : Renderer.Policy)
    (l l2 : List Renderer.MutRecord) (d : Renderer.Doc)
    (hcd : ∀ m ∈ l, m.isCharacterData = true)
    (hres : ∀ m ∈ l, (Renderer.getNode d m.target).isSome = true)
    (hinj : ∀ m ∈ l, ∀ m2 ∈ l,
      Renderer.getNode d m.target = Renderer.getNode d m2.target → m = m2)
    (hperm : l.Perm l2) :
    Renderer.applyAll p l d = Renderer.applyAll p l2 d := by
  unfold Renderer.applyAll
  refine foldl_perm_inv _
    (fun (e : Except String Renderer.Doc) => ∀ dd : Renderer.Doc,
      e = Except.ok dd → dd.nodes = d.nodes ∧ dd.root = d.root)
    hperm ?_ ?_ (.ok d) ?_
  · -- the invariant is preserved by every characterData apply
    intro a ha b hb
    obtain ⟨spec, v, ts, rfl⟩ := isCharacterData_shape a (hcd a ha)
    cases b with
    | error e =>
      intro dd hdd
      simp [Except.bind] at hdd
    | ok dd =>
      obtain ⟨hnodes, hroot⟩ := hb dd rfl
      intro dd2 hdd2
      simp only [Except.bind, Renderer.applyMutation] at hdd2
      cases hr : Renderer.getNode dd spec with
      | none =>
        rw [hr] at hdd2
        simp at hdd2
      | some r =>
        rw [hr] at hdd2
        simp only [Except.ok.injEq] at hdd2
        subst hdd2
        exact ⟨hnodes, hroot⟩
  · -- applies at distinct targets commute
    intro a ha a2 ha2 b hb
    obtain ⟨s1, v1, t1, rfl⟩ := isCharacterData_shape a (hcd a ha)
    obtain ⟨s2, v2, t2, rfl⟩ := isCharacterData_shape a2 (hcd a2 ha2)
    cases b with
    | error e => rfl
    | ok dd =>
      obtain ⟨hnodes, hroot⟩ := hb dd rfl
      have hc1 : Renderer.getNode dd s1 = Renderer.getNode d s1 :=
        getNode_congr dd d hnodes hroot s1
      have hc2 : Renderer.getNode dd s2 = Renderer.getNode d s2 :=
        getNode_congr dd d hnodes hroot s2
      have hs1 : (Renderer.getNode d s1).isSome = true := hres _ ha
      have hs2 : (Renderer.getNode d s2).isSome = true := hres _ ha2
      obtain ⟨r1, hr1⟩ := Option.isSome_iff_exists.mp hs1
      obtain ⟨r2, hr2⟩ := Option.isSome_iff_exists.mp hs2
      by_cases heq : Renderer.getNode d s1 = Renderer.getNode d s2
      · have : Renderer.MutRecord.characterData s1 v1 t1 =
            Renderer.MutRecord.characterData s2 v2 t2 :=
          hinj _ ha _ ha2 heq
        rw [this]
      · have hne : r1 ≠ r2 := by
          intro hrr
          exact heq (by rw [hr1, hr2, hrr])
        have e1 : Renderer.getNode dd s1 = some r1 := hc1.trans hr1
        have e2 : Renderer.getNode dd s2 = some r2 := hc2.trans hr2
        have e2b : Renderer.getNode
            (Renderer.updData dd r1 (fun x => { x with nodeValue := v1 })) s2 =
            some r2 :=
          (getNode_congr _ d (by simpa [Renderer.updData] using hnodes)
            (by simpa [Renderer.updData] using hroot) s2).trans hr2
        have e1b : Renderer.getNode
            (Renderer.updData dd r2 (fun x => { x with nodeValue := v2 })) s1 =
            some r1 :=
          (getNode_congr _ d (by simpa [Renderer.updData] using hnodes)
            (by simpa [Renderer.updData] using hroot) s1).trans hr1
        simp only [Except.bind, Renderer.applyMutation, e1, e2, e2b, e1b]
        simp only [Except.ok.injEq]
        simp only [Renderer.updData]
        rw [updA_comm _ _ _ _ _ hne]
  · intro dd hdd
    simp only [Except.ok.injEq] at hdd
    subst hdd
    exact ⟨rfl, rfl⟩

/-- C9 amended witness: the two text-data records on `t1` and `t2` applied
in either order produce the same document. -/
theorem characterData_distinct_targets_commute_witness :
    Renderer.applyAll Fixture.testPolicy [Fixture.cdA, Fixture.cdB]
        Fixture.baseDoc =
      Renderer.applyAll Fixture.testPolicy [Fixture.cdB, Fixture.cdA]
        Fixture.baseDoc :=
  characterData_distinct_targets_commute Fixture.testPolicy
    [Fixture.cdA, Fixture.cdB] [Fixture.cdB, Fixture.cdA] Fixture.baseDoc
    (by
      intro m hm
      rcases List.mem_cons.mp hm with h | h
      · subst h; rfl
      · rcases List.mem_cons.mp h with h2 | h2
        · subst h2; rfl
        · cases h2)
    (by
      intro m hm
      rcases List.mem_cons.mp hm with h | h
      · subst h; decide
      · rcases List.mem_cons.mp h with h2 | h2
        · subst h2; decide
        · cases h2)
    (by
      intro m hm m2 hm2 hq
      have hm1 : m = Fixture.cdA ∨ m = Fixture.cdB := by
        rcases List.mem_cons.mp hm with h | h
        · exact Or.inl h
        · rcases List.mem_cons.mp h with h2 | h2
          · exact Or.inr h2
          · cases h2
      have hm2b : m2 = Fixture.cdA ∨ m2 = Fixture.cdB := by
        rcases List.mem_cons.mp hm2 with h | h
        · exact Or.inl h
        · rcases List.mem_cons.mp h with h2 | h2
          · exact Or.inr h2
          · cases h2
      rcases hm1 with rfl | rfl <;> rcases hm2b with rfl | rfl
      · rfl
      · exact absurd hq (by decide)
      · exact absurd hq (by decide)
      · rfl)
    (List.Perm.swap Fixture.cdB Fixture.cdA [])

end Theorems
